import Mathlib

/-!
Verification of the arrow-rs / polars-arrow FFI bridge
(src/rust/lancedb/src/polars_arrow_convertors.rs and src/rust/lancedb/src/arrow.rs).

The embedding models the three logical type systems that appear in the source
(arrow-rs data types, polars-arrow data types, polars DataFrame data types)
restricted to the supported scalar subset the bridge exercises, the C data
interchange contract the two arrow implementations share (schema and array
export plus their imports), and the conversion functions of the two
source files.  Fallible Rust functions returning Result are embedded as
Except; Rust functions that unwrap internally and can therefore panic are
embedded as Option, where none models the panic.
-/

set_option autoImplicit false

namespace LanceDbPolarsBridge

/-- Error value standing for the Rust crate error type; conversions carry a
message naming the failure, as the source errors do. -/
structure Err where
  msg : String
  deriving DecidableEq, Repr

/-- Data types of the arrow-rs crate (the supported scalar subset the bridge
exercises; see the type assertions of the tests in arrow.rs). -/
inductive ArrowDataType where
  | int32
  | int64
  | float64
  | boolean
  | utf8
  | largeUtf8
  deriving DecidableEq, Repr

/-- Data types of the polars-arrow crate, over the same supported subset. -/
inductive PolarsArrowDataType where
  | int32
  | int64
  | float64
  | boolean
  | utf8
  | largeUtf8
  deriving DecidableEq, Repr

/-- Logical data types of a polars DataFrame.  The DataFrame type system
conflates the two physical arrow string encodings into one String type. -/
inductive PolarsDataType where
  | int32
  | int64
  | float64
  | boolean
  | string
  deriving DecidableEq, Repr

/-- Format tag of the C data interchange contract: the format string of an
ArrowSchema C descriptor, shared bit for bit by both implementations. -/
inductive CFormat where
  | int32
  | int64
  | float64
  | boolean
  | utf8
  | largeUtf8
  deriving DecidableEq, Repr

/-- Encoding of an arrow-rs data type as a C format string
(modelled from the interchange contract used by arrow-rs export). -/
def encArrow : ArrowDataType → CFormat
  | .int32 => .int32
  | .int64 => .int64
  | .float64 => .float64
  | .boolean => .boolean
  | .utf8 => .utf8
  | .largeUtf8 => .largeUtf8

/-- Decoding of a C format string into an arrow-rs data type
(modelled from the interchange contract used by arrow-rs import). -/
def decArrow : CFormat → ArrowDataType
  | .int32 => .int32
  | .int64 => .int64
  | .float64 => .float64
  | .boolean => .boolean
  | .utf8 => .utf8
  | .largeUtf8 => .largeUtf8

/-- Encoding of a polars-arrow data type as a C format string
(modelled from the interchange contract used by polars-arrow export). -/
def encPolars : PolarsArrowDataType → CFormat
  | .int32 => .int32
  | .int64 => .int64
  | .float64 => .float64
  | .boolean => .boolean
  | .utf8 => .utf8
  | .largeUtf8 => .largeUtf8

/-- Decoding of a C format string into a polars-arrow data type
(modelled from the interchange contract used by polars-arrow import). -/
def decPolars : CFormat → PolarsArrowDataType
  | .int32 => .int32
  | .int64 => .int64
  | .float64 => .float64
  | .boolean => .boolean
  | .utf8 => .utf8
  | .largeUtf8 => .largeUtf8

/-- Conversion of a polars-arrow data type into a polars DataFrame data type,
modelling DataType::from on an ArrowDataType reference: both arrow string
encodings become the single DataFrame String type. -/
def dataTypeFromPolarsArrow : PolarsArrowDataType → PolarsDataType
  | .int32 => .int32
  | .int64 => .int64
  | .float64 => .float64
  | .boolean => .boolean
  | .utf8 => .string
  | .largeUtf8 => .string

/-- Conversion of a polars DataFrame data type into a polars-arrow data type,
modelling DataType::to_arrow at POLARS_ARROW_FLAVOR = false, the only flavor
the bridge uses: the String type is always lowered to the large (64 bit
offset) string encoding, never to the view encoding. -/
def to_arrow : PolarsDataType → PolarsArrowDataType
  | .int32 => .int32
  | .int64 => .int64
  | .float64 => .float64
  | .boolean => .boolean
  | .string => .largeUtf8

/-- An arrow-rs Field: name, data type and nullable flag. -/
structure ArrowField where
  name : String
  dtype : ArrowDataType
  nullable : Bool
  deriving DecidableEq, Repr

/-- A polars-arrow Field: name, data type and nullable flag. -/
structure PolarsArrowField where
  name : String
  dtype : PolarsArrowDataType
  nullable : Bool
  deriving DecidableEq, Repr

/-- A polars DataFrame schema entry.  A DataFrame schema stores only the name
and the DataFrame data type; it has no nullable flag. -/
structure PolarsDfField where
  name : String
  dtype : PolarsDataType
  deriving DecidableEq, Repr

/-- An ArrowSchema C descriptor: name, format string and nullable flag,
as laid out by the interchange contract.  The transmute between the two
implementations is the identity on this shared layout. -/
structure CSchema where
  name : String
  format : CFormat
  nullable : Bool
  deriving DecidableEq, Repr

/-- Export of a polars-arrow field into a C schema descriptor, modelling
polars_arrow export_field_to_c: name, format and nullable flag are encoded. -/
def export_field_to_c (f : PolarsArrowField) : CSchema :=
  ⟨f.name, encPolars f.dtype, f.nullable⟩

/-- Import of a C schema descriptor as a polars-arrow field, modelling
polars_arrow import_field_from_c: name, format and nullable flag are read
back from the descriptor. -/
def import_field_from_c (c : CSchema) : Except Err PolarsArrowField :=
  .ok ⟨c.name, decPolars c.format, c.nullable⟩

/-- Export of a bare arrow-rs data type into a C schema descriptor, modelling
the arrow-rs TryFrom of FFI_ArrowSchema from a DataType reference: only the
type is encoded, so the descriptor carries an empty name and the default
nullable flag of a type-only export. -/
def ffiSchemaFromArrowDataType (dt : ArrowDataType) : Except Err CSchema :=
  .ok ⟨"", encArrow dt, true⟩

/-- Import of a C schema descriptor as an arrow-rs data type, modelling the
arrow-rs TryFrom of DataType from an FFI_ArrowSchema reference: only the
format string is decoded. -/
def arrowDataTypeFromC (c : CSchema) : Except Err ArrowDataType :=
  .ok (decArrow c.format)

/-- The constant IS_ARRAY_NULLABLE of polars_arrow_convertors.rs. -/
def IS_ARRAY_NULLABLE : Bool := true

/-- The constant POLARS_ARROW_FLAVOR of both source files. -/
def POLARS_ARROW_FLAVOR : Bool := false

/-- Embedding of convert_polars_arrow_field_to_arrow_rs_field
(polars_arrow_convertors.rs, lines 100 to 111): export the field to a C
descriptor, decode the data type on the arrow-rs side, and build a new field
from the input name, the decoded type, and the constant IS_ARRAY_NULLABLE. -/
def convert_polars_arrow_field_to_arrow_rs_field (f : PolarsArrowField) :
    Except Err ArrowField :=
  match arrowDataTypeFromC (export_field_to_c f) with
  | .error e => .error e
  | .ok dt => .ok ⟨f.name, dt, IS_ARRAY_NULLABLE⟩

/-- Embedding of convert_arrow_rs_field_to_polars_arrow_field
(polars_arrow_convertors.rs, lines 113 to 120): export only the data type of
the field to a C descriptor and import that descriptor as a polars-arrow
field. -/
def convert_arrow_rs_field_to_polars_arrow_field (f : ArrowField) :
    Except Err PolarsArrowField :=
  match ffiSchemaFromArrowDataType f.dtype with
  | .error e => .error e
  | .ok c => import_field_from_c c

/-- Insertion into a polars Schema, which is an index map keyed by field name:
inserting an existing name updates the value at its original position,
inserting a new name appends. -/
def insertDfField (s : List PolarsDfField) (f : PolarsDfField) :
    List PolarsDfField :=
  if s.any (fun g => g.name = f.name) then
    s.map (fun g => if g.name = f.name then ⟨g.name, f.dtype⟩ else g)
  else
    s ++ [f]

/-- A polars Schema built from an iterator of fields, modelling
Schema::from_iter over the index map semantics of a polars Schema. -/
def schemaFromList (fs : List PolarsDfField) : List PolarsDfField :=
  fs.foldl insertDfField []

/-- Helper collecting the per-field results of
convert_arrow_rb_schema_to_polars_df_schema, modelling the short-circuiting
collect over a Result iterator. -/
def convertSchemaFields : List ArrowField → Except Err (List PolarsDfField)
  | [] => .ok []
  | f :: fs =>
    match convert_arrow_rs_field_to_polars_arrow_field f with
    | .error e => .error e
    | .ok pf =>
      match convertSchemaFields fs with
      | .error e => .error e
      | .ok rest => .ok (⟨f.name, dataTypeFromPolarsArrow pf.dtype⟩ :: rest)

/-- Embedding of convert_arrow_rb_schema_to_polars_df_schema
(polars_arrow_convertors.rs, lines 27 to 42): every arrow field is converted
to a polars-arrow field through the C contract, the DataFrame field takes the
arrow field name and the DataFrame form of the converted data type, and the
results are collected into a polars Schema. -/
def convert_arrow_rb_schema_to_polars_df_schema (s : List ArrowField) :
    Except Err (List PolarsDfField) :=
  match convertSchemaFields s with
  | .error e => .error e
  | .ok fs => .ok (schemaFromList fs)

/-- A scalar cell value.  The bridge never computes on values; it only moves
buffers across the FFI boundary unchanged, so a float cell is modelled by an
exact rational payload that passes through untouched. -/
inductive Value where
  | str (s : String)
  | i32 (n : Int)
  | i64 (n : Int)
  | f64 (q : Rat)
  | bool (b : Bool)
  deriving DecidableEq, Repr

/-- An arrow-rs array of a scalar type: a data type and the cell values. -/
structure ArrowArray where
  dtype : ArrowDataType
  values : List Value
  deriving DecidableEq, Repr

/-- A polars-arrow array of a scalar type: a data type and the cell values. -/
structure PolarsArrowArray where
  dtype : PolarsArrowDataType
  values : List Value
  deriving DecidableEq, Repr

/-- An ArrowArray C descriptor as exported through the interchange contract.
A prim descriptor carries the format of the buffers it was exported from and
the cell values those buffers hold; a strc descriptor carries a row count and
the child descriptors of a struct-typed export.  The transmute between the
two implementations is the identity on this shared layout. -/
inductive CArray where
  | prim (format : CFormat) (values : List Value)
  | strc (len : Nat) (children : List CArray)

/-- Import of a scalar C array descriptor given a declared polars-arrow data
type, modelling polars_arrow import_array_from_c: the importer validates the
buffer layout of the descriptor against the declared type and rejects a
descriptor whose layout does not match (for example a large string export
declared as a 32 bit integer has one buffer too many).  In the modelled
subset a layout mismatch coincides with a format mismatch; no claim below
depends on a same-layout reinterpretation. -/
def importPolarsPrimFromC (c : CArray) (dt : PolarsArrowDataType) :
    Except Err PolarsArrowArray :=
  match c with
  | .prim fmt vals =>
    if encPolars dt = fmt then .ok ⟨dt, vals⟩
    else .error ⟨"ffi buffer layout mismatch"⟩
  | .strc _ _ => .error ⟨"ffi buffer layout mismatch"⟩

/-- Import of a scalar C array descriptor given a declared arrow-rs data
type, modelling arrow from_ffi_and_data_type followed by make_array, with the
same layout validation as the polars-arrow importer. -/
def importArrowPrimFromC (c : CArray) (dt : ArrowDataType) :
    Except Err ArrowArray :=
  match c with
  | .prim fmt vals =>
    if encArrow dt = fmt then .ok ⟨dt, vals⟩
    else .error ⟨"ffi buffer layout mismatch"⟩
  | .strc _ _ => .error ⟨"ffi buffer layout mismatch"⟩

/-- Import of the children of a struct C array descriptor against the field
list of a declared struct type, modelling the polars-arrow struct import:
the importing side builds one child per declared field, in order; asking for a child
index beyond the exported child count is rejected out of spec, while exported
children beyond the declared field count are ignored. -/
def importStructChildren : List PolarsArrowField → List CArray →
    Except Err (List PolarsArrowArray)
  | [], _ => .ok []
  | _ :: _, [] => .error ⟨"ffi child index out of range"⟩
  | f :: fs, c :: cs =>
    match importPolarsPrimFromC c f.dtype with
    | .error e => .error e
    | .ok a =>
      match importStructChildren fs cs with
      | .error e => .error e
      | .ok rest => .ok (a :: rest)

/-- Embedding of convert_polars_arrow_array_to_arrow_rs_array
(polars_arrow_convertors.rs, lines 79 to 88): export the polars-arrow array
to a C descriptor, reinterpret the descriptor, and import it on the arrow-rs
side with the declared data type; an import rejection is returned as an
error. -/
def convert_polars_arrow_array_to_arrow_rs_array (p : PolarsArrowArray)
    (dt : ArrowDataType) : Except Err ArrowArray :=
  importArrowPrimFromC (.prim (encPolars p.dtype) p.values) dt

/-- Embedding of convert_arrow_rs_array_to_polars_arrow_array
(polars_arrow_convertors.rs, lines 91 to 98) at a scalar array: export the
arrow-rs array to a C descriptor, reinterpret the descriptor, and import it
on the polars-arrow side with the declared data type; an import rejection is
returned as an error. -/
def convert_arrow_rs_array_to_polars_arrow_array (a : ArrowArray)
    (dt : PolarsArrowDataType) : Except Err PolarsArrowArray :=
  importPolarsPrimFromC (.prim (encArrow a.dtype) a.values) dt

/-- Embedding of the private convert_polars_array_to_arrow_rs_array of
arrow.rs (lines 202 to 211): the same export and import as the convertor
above, but the import result is unwrapped, so a rejection panics instead of
being returned; none models the panic. -/
def convert_polars_array_to_arrow_rs_array (p : PolarsArrowArray)
    (dt : ArrowDataType) : Option ArrowArray :=
  (importArrowPrimFromC (.prim (encPolars p.dtype) p.values) dt).toOption

/-- Embedding of the private convert_arrow_rs_array_to_polars_array of
arrow.rs (lines 281 to 289): the same export and import as the convertor
above, but the import result is unwrapped, so a rejection panics instead of
being returned; none models the panic. -/
def convert_arrow_rs_array_to_polars_array (a : ArrowArray)
    (dt : PolarsArrowDataType) : Option PolarsArrowArray :=
  (importPolarsPrimFromC (.prim (encArrow a.dtype) a.values) dt).toOption

/-- An arrow-rs RecordBatch: a schema and one column array per field. -/
structure ArrowRecordBatch where
  schema : List ArrowField
  columns : List ArrowArray
  deriving DecidableEq, Repr

/-- Row count of a RecordBatch, the length of its first column. -/
def ArrowRecordBatch.numRows (rb : ArrowRecordBatch) : Nat :=
  ((rb.columns.head?).map (fun c => c.values.length)).getD 0

/-- A polars Series: a name, a DataFrame data type, and the row values split
into chunks. -/
structure Series where
  name : String
  dtype : PolarsDataType
  chunks : List (List Value)
  deriving DecidableEq, Repr

/-- Total row count of a Series across its chunks. -/
def Series.len (s : Series) : Nat :=
  (s.chunks.map List.length).sum

/-- A polars DataFrame: an ordered list of Series. -/
structure DataFrame where
  columns : List Series
  deriving DecidableEq, Repr

/-- Width of a DataFrame. -/
def DataFrame.width (df : DataFrame) : Nat := df.columns.length

/-- Height of a DataFrame: the length of its first column, zero for a
DataFrame without columns. -/
def DataFrame.height (df : DataFrame) : Nat :=
  ((df.columns.head?).map Series.len).getD 0

/-- Chunk count of a DataFrame: the chunk count of its first column, zero for
a DataFrame without columns.  The accumulated frames below keep all columns
aligned. -/
def DataFrame.nChunks (df : DataFrame) : Nat :=
  ((df.columns.head?).map (fun s => s.chunks.length)).getD 0

/-- Append of one Series onto another, modelling the polars vertical append
used by DataFrame vstack: the names and data types must agree, an append onto
a Series without rows takes over the chunks of the right side (the behavior
the accumulation test of arrow.rs pins with its chunk count assertion), and
otherwise the chunk lists are concatenated without copying. -/
def Series.append (a b : Series) : Except Err Series :=
  if a.name = b.name ∧ a.dtype = b.dtype then
    if a.len = 0 then .ok ⟨a.name, a.dtype, b.chunks⟩
    else .ok ⟨a.name, a.dtype, a.chunks ++ b.chunks⟩
  else .error ⟨"series append name or dtype mismatch"⟩

/-- Helper appending the columns of two DataFrames pairwise. -/
def vstackColumns : List Series → List Series → Except Err (List Series)
  | [], _ => .ok []
  | _ :: _, [] => .ok []
  | a :: as2, b :: bs =>
    match a.append b with
    | .error e => .error e
    | .ok c =>
      match vstackColumns as2 bs with
      | .error e => .error e
      | .ok rest => .ok (c :: rest)

/-- Vertical stack of two DataFrames, modelling polars DataFrame vstack: the
widths must agree and the columns are appended pairwise. -/
def DataFrame.vstack (a b : DataFrame) : Except Err DataFrame :=
  if a.width = b.width then
    match vstackColumns a.columns b.columns with
    | .error e => .error e
    | .ok cols => .ok ⟨cols⟩
  else .error ⟨"vstack width mismatch"⟩

/-- An empty DataFrame built from a polars Schema, modelling DataFrame::from
of a Schema reference: one empty Series per field, each holding a single
empty chunk. -/
def dfFromSchema (ps : List PolarsDfField) : DataFrame :=
  ⟨ps.map (fun f => ⟨f.name, f.dtype, [[]]⟩)⟩

/-- A Series built from a polars-arrow array, modelling Series::from_arrow:
the Series takes the given name, the DataFrame form of the array data type,
and the array as its single chunk. -/
def seriesFromArrow (name : String) (a : PolarsArrowArray) : Series :=
  ⟨name, dataTypeFromPolarsArrow a.dtype, [a.values]⟩

/-- Embedding of convert_arrow_rb_to_polars_df (polars_arrow_convertors.rs,
lines 45 to 76): the batch is wrapped as one struct-typed array whose
children are the batch columns, the declared struct type is built from the
provided polars Schema with to_arrow and IS_ARRAY_NULLABLE, the wrapped array
crosses the FFI boundary as one descriptor tree, and the imported children
are zipped with the Schema names into a DataFrame. -/
def convert_arrow_rb_to_polars_df (rb : ArrowRecordBatch)
    (ps : List PolarsDfField) : Except Err DataFrame :=
  let cArr : List CArray := rb.columns.map (fun c => .prim (encArrow c.dtype) c.values)
  let pfields : List PolarsArrowField :=
    ps.map (fun f => ⟨f.name, to_arrow f.dtype, IS_ARRAY_NULLABLE⟩)
  match importStructChildren pfields cArr with
  | .error e => .error e
  | .ok children =>
    .ok ⟨(children.zip (ps.map (fun f => f.name))).map
      (fun p => seriesFromArrow p.2 p.1)⟩

/-- Embedding of SimpleRecordBatchReader (arrow.rs, lines 41 to 60): a schema
fixed at construction and an iterator of batch results. -/
structure SimpleRecordBatchReader where
  schema : List ArrowField
  batches : List (Except Err ArrowRecordBatch)

/-- The Iterator next of SimpleRecordBatchReader (arrow.rs, lines 46 to 52):
the inner iterator item is forwarded unchanged, with no check of the yielded
batch against the stored schema. -/
def SimpleRecordBatchReader.next (r : SimpleRecordBatchReader) :
    Option (Except Err ArrowRecordBatch) × SimpleRecordBatchReader :=
  (r.batches.head?, ⟨r.schema, r.batches.tail⟩)

/-- Embedding of RecordBatch::try_new as used by the polars reader: the
constructor validates that the column count matches the schema, that every
column has the data type of its field, and that all columns have one common
length; on success the batch carries exactly the given schema. -/
def recordBatchTryNew (s : List ArrowField) (cols : List ArrowArray) :
    Except Err ArrowRecordBatch :=
  if cols.length = s.length
      ∧ (∀ p ∈ s.zip cols, p.2.dtype = p.1.dtype)
      ∧ (∀ c ∈ cols, c.values.length =
          (((cols.head?).map (fun a => a.values.length)).getD 0)) then
    .ok ⟨s, cols⟩
  else .error ⟨"record batch shape or type mismatch"⟩

/-- Whether the chunks of a DataFrame are aligned: every column splits its
rows at the same chunk boundaries. -/
def chunksAligned (df : DataFrame) : Bool :=
  match df.columns with
  | [] => true
  | c :: rest =>
    rest.all (fun s => s.chunks.map List.length == c.chunks.map List.length)

/-- Model of DataFrame align_chunks: a DataFrame whose chunks are already
aligned is left unchanged; otherwise every Series is reallocated as a single
contiguous chunk. -/
def alignChunks (df : DataFrame) : DataFrame :=
  if chunksAligned df then df
  else ⟨df.columns.map (fun s => ⟨s.name, s.dtype, [s.chunks.flatten]⟩)⟩

/-- The arrow-rs field built for one DataFrame schema entry by the reader
constructor (arrow.rs, lines 155 to 167): the DataFrame data type is lowered
with to_arrow at POLARS_ARROW_FLAVOR, wrapped in a polars-arrow field,
exported to a C descriptor, decoded on the arrow-rs side, and combined with
the name and a true nullable flag. -/
def arrowFieldOfDfField (name : String) (dt : PolarsDataType) : ArrowField :=
  ⟨name, decArrow (encPolars (to_arrow dt)), true⟩

/-- One chunk of a DataFrame as polars-arrow arrays, modelling iter_chunks at
POLARS_ARROW_FLAVOR: column order follows the DataFrame, each array carries
the lowered data type and the rows of that chunk. -/
def dfChunkAt (df : DataFrame) (i : Nat) : List PolarsArrowArray :=
  df.columns.map (fun s => ⟨to_arrow s.dtype, s.chunks.getD i []⟩)

/-- Embedding of PolarsDataFrameRecordBatchReader (arrow.rs, lines 143 to
146): the remaining chunks and the arrow schema fixed at construction. -/
structure PolarsDataFrameRecordBatchReader where
  chunks : List (List PolarsArrowArray)
  arrow_schema : List ArrowField

/-- Embedding of PolarsDataFrameRecordBatchReader::new (arrow.rs, lines 149
to 177): align the chunks of the DataFrame, derive the arrow schema from the
DataFrame schema, and collect the chunks. -/
def PolarsDataFrameRecordBatchReader.new (df : DataFrame) :
    PolarsDataFrameRecordBatchReader :=
  let df2 := alignChunks df
  { chunks := (List.range df2.nChunks).map (dfChunkAt df2)
    arrow_schema := df2.columns.map (fun s => arrowFieldOfDfField s.name s.dtype) }

/-- Helper converting the zipped arrays and fields of one chunk, modelling
the column loop of the reader Iterator (arrow.rs, lines 185 to 195): each
polars array is converted with the panicking private convertor, so a single
rejected import panics the whole iteration. -/
def convertChunkCols : List (PolarsArrowArray × ArrowField) →
    Option (List ArrowArray)
  | [] => some []
  | (p, f) :: rest =>
    match convert_polars_array_to_arrow_rs_array p f.dtype with
    | none => none
    | some a =>
      match convertChunkCols rest with
      | none => none
      | some tl => some (a :: tl)

/-- One step of the reader Iterator (arrow.rs, lines 183 to 198) on a given
chunk: the chunk arrays are zipped with the schema fields, converted, and
handed to RecordBatch::try_new, whose result is the yielded item. -/
def convertChunk (s : List ArrowField) (chunk : List PolarsArrowArray) :
    Option (Except Err ArrowRecordBatch) :=
  match convertChunkCols (chunk.zip s) with
  | none => none
  | some cols => some (recordBatchTryNew s cols)

/-- All items yielded by a polars reader, in order. -/
def polarsReaderYields (r : PolarsDataFrameRecordBatchReader) :
    List (Option (Except Err ArrowRecordBatch)) :=
  r.chunks.map (convertChunk r.arrow_schema)

/-- Embedding of the private convert_arrow_schema_to_polars_df_schema of
arrow.rs (lines 242 to 259): every field data type is exported to a C
descriptor and imported on the polars-arrow side, both with unwrap, and the
DataFrame schema is built from the field names and the DataFrame form of
the imported types.  On the modelled supported subset both steps always succeed,
so the embedding is total; the function returns a bare Schema, not a result. -/
def convert_arrow_schema_to_polars_df_schema (s : List ArrowField) :
    List PolarsDfField :=
  schemaFromList (s.map (fun f =>
    ⟨f.name, dataTypeFromPolarsArrow (decPolars (encArrow f.dtype))⟩))

/-- Helper for the column loop of convert_record_batch_to_polars_df (arrow.rs,
lines 266 to 276), iterating the batch columns against the Schema fields in
index order: a missing Schema index is returned as an error, a rejected
array import panics (none), and each converted column becomes a Series via
Series::from_arrow. -/
def convertColumns : List PolarsDfField → List ArrowArray →
    Option (Except Err (List Series))
  | _, [] => some (.ok [])
  | [], _ :: _ => some (.error ⟨"schema field not found"⟩)
  | f :: fs, c :: cs =>
    match convert_arrow_rs_array_to_polars_array c (to_arrow f.dtype) with
    | none => none
    | some pa =>
      match convertColumns fs cs with
      | none => none
      | some (.error e) => some (.error e)
      | some (.ok rest) => some (.ok (seriesFromArrow f.name pa :: rest))

/-- Embedding of the private convert_record_batch_to_polars_df of arrow.rs
(lines 262 to 279): the batch columns are converted one by one against the
polars Schema and collected into a DataFrame. -/
def convert_record_batch_to_polars_df (rb : ArrowRecordBatch)
    (ps : List PolarsDfField) : Option (Except Err DataFrame) :=
  match convertColumns ps rb.columns with
  | none => none
  | some (.error e) => some (.error e)
  | some (.ok sers) => some (.ok ⟨sers⟩)

/-- The accumulation loop of into_polars (arrow.rs, lines 230 to 239): each
stream item is unwrapped with the question mark operator, each batch is
converted against the polars Schema, and the result is vertically stacked
onto the accumulator; the loop stops at the first error and never consumes
later items. -/
def intoPolarsGo (ps : List PolarsDfField) (acc : DataFrame) :
    List (Except Err ArrowRecordBatch) → Option (Except Err DataFrame)
  | [] => some (.ok acc)
  | .error e :: _ => some (.error e)
  | .ok rb :: rest =>
    match convert_record_batch_to_polars_df rb ps with
    | none => none
    | some (.error e) => some (.error e)
    | some (.ok ndf) =>
      match acc.vstack ndf with
      | .error e => some (.error e)
      | .ok acc2 => intoPolarsGo ps acc2 rest

/-- Embedding of IntoPolars for SendableRecordBatchStream (arrow.rs, lines
229 to 240): the stream schema is converted once to a polars Schema, the
accumulator starts as the empty DataFrame of that Schema, and the stream
items are folded in arrival order. -/
def into_polars (s : List ArrowField)
    (items : List (Except Err ArrowRecordBatch)) :
    Option (Except Err DataFrame) :=
  let ps := convert_arrow_schema_to_polars_df_schema s
  intoPolarsGo ps (dfFromSchema ps) items

/-- Sequencing of the items yielded by a reader: the full item list when no
iteration step panics, none when one does. -/
def sequenceYields : List (Option (Except Err ArrowRecordBatch)) →
    Option (List (Except Err ArrowRecordBatch))
  | [] => some []
  | none :: _ => none
  | some x :: rest =>
    match sequenceYields rest with
    | none => none
    | some tl => some (x :: tl)

/-- The end to end pipeline of the arrow.rs tests: a DataFrame is turned into
a reader, the yielded batches are fed as a stream into into_polars under the
reader schema, and the accumulated DataFrame is the result. -/
def endToEnd (df : DataFrame) : Option (Except Err DataFrame) :=
  let r := PolarsDataFrameRecordBatchReader.new df
  match sequenceYields (polarsReaderYields r) with
  | none => none
  | some items => into_polars r.arrow_schema items

/-- The composite data type mapping from arrow-rs to the DataFrame type
system, as performed by the schema conversions of both source files: C
export, polars-arrow import, DataFrame view. -/
def arrowDtypeToDf (dt : ArrowDataType) : PolarsDataType :=
  dataTypeFromPolarsArrow (decPolars (encArrow dt))

/-- Whether an arrow-rs data type is the canonical representative of its
DataFrame data type: lowering its DataFrame form back with to_arrow yields
the same C format.  Every supported type except utf8 is canonical; utf8 is
conflated with largeUtf8 by the DataFrame type system and comes back as the
fixed large encoding. -/
def dtypeCanonical (dt : ArrowDataType) : Bool :=
  decide (encPolars (to_arrow (arrowDtypeToDf dt)) = encArrow dt)

/-- The polars Schema whose entries mirror an arrow schema field for field,
before any index map deduplication. -/
def psOf (s : List ArrowField) : List PolarsDfField :=
  s.map (fun f => ⟨f.name, arrowDtypeToDf f.dtype⟩)

/-- A batch conforms to a schema when it carries that schema, has one column
per field, every column has the data type of its field, and all columns share
the batch row count.  This is the contract the record batch adapters promise
for every yielded batch. -/
def conformsTo (rb : ArrowRecordBatch) (s : List ArrowField) : Prop :=
  rb.schema = s ∧ rb.columns.length = s.length ∧
    (∀ p ∈ s.zip rb.columns, p.2.dtype = p.1.dtype) ∧
    (∀ c ∈ rb.columns, c.values.length = rb.numRows)

instance (rb : ArrowRecordBatch) (s : List ArrowField) :
    Decidable (conformsTo rb s) := by
  unfold conformsTo; infer_instance

/-- The accumulated DataFrame shape shared by the accumulation lemmas: one
Series per schema field, named and typed after the field, holding a given
chunk list. -/
def colsFrame (s : List ArrowField) (ls : List (List (List Value))) :
    DataFrame :=
  ⟨List.zipWith (fun f l => Series.mk f.name (arrowDtypeToDf f.dtype) l) s ls⟩

/-- The polars-arrow field built from a DataFrame schema entry on the way
back to arrow-rs, as done by the batch conversion of
polars_arrow_convertors.rs (lines 50 to 55): the DataFrame type is lowered
with to_arrow at the fixed flavor and the nullable flag is the constant
IS_ARRAY_NULLABLE. -/
def dfFieldToPolarsArrowField (f : PolarsDfField) : PolarsArrowField :=
  ⟨f.name, to_arrow f.dtype, IS_ARRAY_NULLABLE⟩

/-- Helper collecting the field by field conversion of a polars Schema back
to arrow-rs fields through convert_polars_arrow_field_to_arrow_rs_field. -/
def backConvertFields : List PolarsDfField → Except Err (List ArrowField)
  | [] => .ok []
  | f :: fs =>
    match convert_polars_arrow_field_to_arrow_rs_field
        (dfFieldToPolarsArrowField f) with
    | .error e => .error e
    | .ok a =>
      match backConvertFields fs with
      | .error e => .error e
      | .ok rest => .ok (a :: rest)

/-- The schema round trip of the fidelity claim: an arrow schema is converted
to a polars DataFrame Schema with convert_arrow_rb_schema_to_polars_df_schema
and every entry is converted back to an arrow field with
convert_polars_arrow_field_to_arrow_rs_field. -/
def roundTripSchema (s : List ArrowField) : Except Err (List ArrowField) :=
  match convert_arrow_rb_schema_to_polars_df_schema s with
  | .error e => .error e
  | .ok ps => backConvertFields ps

/-- Name projection of a DataFrame into its schema view: the name and
DataFrame data type of every column, in order. -/
def dfSchemaOf (df : DataFrame) : List (String × PolarsDataType) :=
  df.columns.map (fun s => (s.name, s.dtype))

/-- The three column, one row example DataFrame of the end to end scenario:
a string column holding ab, an int column holding 1, a float column
holding 1.0. -/
def exampleDf : DataFrame :=
  ⟨[⟨"string", .string, [[.str "ab"]]⟩,
    ⟨"int", .int32, [[.i32 1]]⟩,
    ⟨"float", .float64, [[.f64 1]]⟩]⟩

/-- The DataFrame the end to end scenario must reproduce: identical to the
example input, with one chunk per column. -/
def exampleDfResult : DataFrame :=
  ⟨[⟨"string", .string, [[.str "ab"]]⟩,
    ⟨"int", .int32, [[.i32 1]]⟩,
    ⟨"float", .float64, [[.f64 1]]⟩]⟩

theorem decArrow_encArrow (dt : ArrowDataType) : decArrow (encArrow dt) = dt := by
  cases dt <;> rfl

theorem dataTypeFromPolarsArrow_to_arrow (d : PolarsDataType) :
    dataTypeFromPolarsArrow (to_arrow d) = d := by
  cases d <;> rfl

theorem insertDfField_notMem (acc : List PolarsDfField) (f : PolarsDfField)
    (h : f.name ∉ acc.map PolarsDfField.name) :
    insertDfField acc f = acc ++ [f] := by
  unfold insertDfField
  rw [if_neg]
  intro hc
  rw [List.any_eq_true] at hc
  obtain ⟨g, hg, hgf⟩ := hc
  exact h (of_decide_eq_true hgf ▸ List.mem_map_of_mem PolarsDfField.name hg)

theorem schemaFromList_go (fs : List PolarsDfField) :
    ∀ acc, ((acc ++ fs).map PolarsDfField.name).Nodup →
      fs.foldl insertDfField acc = acc ++ fs := by
  induction fs with
  | nil => intro acc _; simp
  | cons f fs ih =>
    intro acc h
    have hnm : f.name ∉ acc.map PolarsDfField.name := by
      rw [List.map_append] at h
      rcases List.nodup_append.mp h with ⟨_, _, hd⟩
      intro hin
      exact hd hin (by simp)
    rw [List.foldl_cons, insertDfField_notMem acc f hnm]
    have hstep := ih (acc ++ [f]) (by simpa using h)
    rw [hstep]
    simp

theorem schemaFromList_nodup (fs : List PolarsDfField)
    (h : (fs.map PolarsDfField.name).Nodup) : schemaFromList fs = fs := by
  have := schemaFromList_go fs [] (by simpa using h)
  simpa [schemaFromList] using this

theorem convertSchemaFields_eq (s : List ArrowField) :
    convertSchemaFields s = .ok (psOf s) := by
  induction s with
  | nil => rfl
  | cons f fs ih =>
    simp [convertSchemaFields, convert_arrow_rs_field_to_polars_arrow_field,
      ffiSchemaFromArrowDataType, import_field_from_c, ih, psOf, arrowDtypeToDf]

theorem psOf_names (s : List ArrowField) :
    (psOf s).map PolarsDfField.name = s.map ArrowField.name := by
  simp [psOf]

theorem convert_arrow_rb_schema_nodup (s : List ArrowField)
    (h : (s.map ArrowField.name).Nodup) :
    convert_arrow_rb_schema_to_polars_df_schema s = .ok (psOf s) := by
  unfold convert_arrow_rb_schema_to_polars_df_schema
  rw [convertSchemaFields_eq]
  show Except.ok (schemaFromList (psOf s)) = _
  rw [schemaFromList_nodup (psOf s) (by rw [psOf_names]; exact h)]

theorem convert_arrow_schema_nodup (s : List ArrowField)
    (h : (s.map ArrowField.name).Nodup) :
    convert_arrow_schema_to_polars_df_schema s = psOf s := by
  unfold convert_arrow_schema_to_polars_df_schema
  have : s.map (fun f =>
      (⟨f.name, dataTypeFromPolarsArrow (decPolars (encArrow f.dtype))⟩ :
        PolarsDfField)) = psOf s := rfl
  rw [this, schemaFromList_nodup (psOf s) (by rw [psOf_names]; exact h)]

theorem backConvertFields_eq (ps : List PolarsDfField) :
    backConvertFields ps = .ok (ps.map (fun f =>
      ⟨f.name, decArrow (encPolars (to_arrow f.dtype)), true⟩)) := by
  induction ps with
  | nil => rfl
  | cons f fs ih =>
    simp [backConvertFields, convert_polars_arrow_field_to_arrow_rs_field,
      arrowDataTypeFromC, export_field_to_c, dfFieldToPolarsArrowField,
      IS_ARRAY_NULLABLE, ih]

theorem convertColumns_ok :
    ∀ (s : List ArrowField) (cols : List ArrowArray),
      cols.length = s.length →
      (∀ p ∈ s.zip cols, p.2.dtype = p.1.dtype) →
      (∀ f ∈ s, dtypeCanonical f.dtype = true) →
      convertColumns (psOf s) cols =
        some (.ok (List.zipWith (fun f (c : ArrowArray) =>
          Series.mk f.name (arrowDtypeToDf f.dtype) [c.values]) s cols)) := by
  intro s
  induction s with
  | nil =>
    intro cols hlen _ _
    cases cols with
    | nil => rfl
    | cons c cs => simp at hlen
  | cons f fs ih =>
    intro cols hlen hty hcan
    cases cols with
    | nil => simp at hlen
    | cons c cs =>
      have hdt : c.dtype = f.dtype := hty (f, c) (by simp)
      have hc : dtypeCanonical f.dtype = true := hcan f (by simp)
      have henc : encPolars (to_arrow (arrowDtypeToDf f.dtype)) = encArrow c.dtype := by
        rw [hdt]; exact of_decide_eq_true hc
      have hrest := ih cs (by simpa using hlen)
        (fun p hp => hty p (by simp [hp]))
        (fun g hg => hcan g (by simp [hg]))
      show convertColumns
        ((⟨f.name, arrowDtypeToDf f.dtype⟩ : PolarsDfField) :: psOf fs)
        (c :: cs) = _
      simp only [convertColumns, convert_arrow_rs_array_to_polars_array,
        importPolarsPrimFromC, henc, if_pos, Except.toOption, hrest,
        seriesFromArrow, dataTypeFromPolarsArrow_to_arrow, List.zipWith_cons_cons]

theorem convert_record_batch_ok (s : List ArrowField) (rb : ArrowRecordBatch)
    (hconf : conformsTo rb s)
    (hcan : ∀ f ∈ s, dtypeCanonical f.dtype = true) :
    convert_record_batch_to_polars_df rb (psOf s) =
      some (.ok (colsFrame s (rb.columns.map (fun c => [c.values])))) := by
  obtain ⟨_, hlen, hty, _⟩ := hconf
  unfold convert_record_batch_to_polars_df
  rw [convertColumns_ok s rb.columns hlen hty hcan]
  show some (Except.ok (DataFrame.mk _)) = _
  rw [colsFrame, List.zipWith_map_right]

theorem vstackColumns_zero :
    ∀ (t : List ArrowField) (L0 L1 : List (List (List Value))),
      L0.length = t.length → L1.length = t.length →
      (∀ l ∈ L0, (l.map List.length).sum = 0) →
      vstackColumns
        (List.zipWith (fun f l => Series.mk f.name (arrowDtypeToDf f.dtype) l) t L0)
        (List.zipWith (fun f l => Series.mk f.name (arrowDtypeToDf f.dtype) l) t L1) =
      .ok (List.zipWith (fun f l => Series.mk f.name (arrowDtypeToDf f.dtype) l) t L1) := by
  intro t
  induction t with
  | nil => intro L0 L1 _ _ _; rfl
  | cons f fs ih =>
    intro L0 L1 h0 h1 hz
    cases L0 with
    | nil => simp at h0
    | cons l0 L0 =>
      cases L1 with
      | nil => simp at h1
      | cons l1 L1 =>
        have hz0 : (l0.map List.length).sum = 0 := hz l0 (by simp)
        have hrest := ih L0 L1 (by simpa using h0) (by simpa using h1)
          (fun l hl => hz l (by simp [hl]))
        simp only [List.zipWith_cons_cons, vstackColumns, Series.append,
          Series.len, hz0, eq_self_iff_true, and_self, ite_true, hrest]

theorem vstackColumns_pos :
    ∀ (t : List ArrowField) (L0 L1 : List (List (List Value))),
      L0.length = t.length → L1.length = t.length →
      (∀ l ∈ L0, (l.map List.length).sum ≠ 0) →
      vstackColumns
        (List.zipWith (fun f l => Series.mk f.name (arrowDtypeToDf f.dtype) l) t L0)
        (List.zipWith (fun f l => Series.mk f.name (arrowDtypeToDf f.dtype) l) t L1) =
      .ok (List.zipWith (fun f l => Series.mk f.name (arrowDtypeToDf f.dtype) l) t
        (List.zipWith (· ++ ·) L0 L1)) := by
  intro t
  induction t with
  | nil => intro L0 L1 _ _ _; rfl
  | cons f fs ih =>
    intro L0 L1 h0 h1 hp
    cases L0 with
    | nil => simp at h0
    | cons l0 L0 =>
      cases L1 with
      | nil => simp at h1
      | cons l1 L1 =>
        have hp0 : ¬((l0.map List.length).sum = 0) := hp l0 (by simp)
        have hrest := ih L0 L1 (by simpa using h0) (by simpa using h1)
          (fun l hl => hp l (by simp [hl]))
        simp only [List.zipWith_cons_cons, vstackColumns, Series.append,
          Series.len, hp0, eq_self_iff_true, and_self, ite_true, ite_false,
          hrest]

theorem vstack_zero (s : List ArrowField)
    (L0 L1 : List (List (List Value)))
    (h0 : L0.length = s.length) (h1 : L1.length = s.length)
    (hz : ∀ l ∈ L0, (l.map List.length).sum = 0) :
    (colsFrame s L0).vstack (colsFrame s L1) = .ok (colsFrame s L1) := by
  unfold DataFrame.vstack colsFrame
  rw [if_pos]
  · rw [vstackColumns_zero s L0 L1 h0 h1 hz]
  · show (List.zipWith _ s L0).length = (List.zipWith _ s L1).length
    simp [h0, h1]

theorem vstack_pos (s : List ArrowField)
    (L0 L1 : List (List (List Value)))
    (h0 : L0.length = s.length) (h1 : L1.length = s.length)
    (hp : ∀ l ∈ L0, (l.map List.length).sum ≠ 0) :
    (colsFrame s L0).vstack (colsFrame s L1) =
      .ok (colsFrame s (List.zipWith (· ++ ·) L0 L1)) := by
  unfold DataFrame.vstack colsFrame
  rw [if_pos]
  · rw [vstackColumns_pos s L0 L1 h0 h1 hp]
  · show (List.zipWith _ s L0).length = (List.zipWith _ s L1).length
    simp [h0, h1]

theorem dfFromSchema_psOf : ∀ (s : List ArrowField),
    dfFromSchema (psOf s) = colsFrame s (List.replicate s.length [[]])
  | [] => rfl
  | f :: fs => by
    have ih := congrArg DataFrame.columns (dfFromSchema_psOf fs)
    simp only [dfFromSchema, colsFrame, psOf] at ih ⊢
    simp only [List.map_cons, List.length_cons, List.replicate_succ,
      List.zipWith_cons_cons, ih]

theorem sums_zipWith_append :
    ∀ (L M : List (List (List Value))) (n m : Nat),
      (∀ l ∈ L, (l.map List.length).sum = n) →
      (∀ l ∈ M, (l.map List.length).sum = m) →
      ∀ l ∈ List.zipWith (· ++ ·) L M, (l.map List.length).sum = n + m := by
  intro L
  induction L with
  | nil => intro M n m _ _ l hl; simp at hl
  | cons a L ih =>
    intro M n m hL hM l hl
    cases M with
    | nil => simp at hl
    | cons b M =>
      rw [List.zipWith_cons_cons] at hl
      rcases List.mem_cons.mp hl with h | h
      · subst h
        rw [List.map_append, List.sum_append, hL a (by simp), hM b (by simp)]
      · exact ih M n m (fun x hx => hL x (by simp [hx]))
          (fun x hx => hM x (by simp [hx])) l h

theorem intoPolarsGo_error (s : List ArrowField) (e : Err)
    (hcan : ∀ f ∈ s, dtypeCanonical f.dtype = true) :
    ∀ (pre : List ArrowRecordBatch) (post : List (Except Err ArrowRecordBatch))
      (L : List (List (List Value))) (n : Nat),
      L.length = s.length →
      (∀ l ∈ L, (l.map List.length).sum = n) →
      (∀ b ∈ pre, conformsTo b s) →
      intoPolarsGo (psOf s) (colsFrame s L)
        (pre.map Except.ok ++ Except.error e :: post) = some (.error e) := by
  intro pre
  induction pre with
  | nil => intro post L n _ _ _; rfl
  | cons b pre ih =>
    intro post L n hL hn hconf
    have hb : conformsTo b s := hconf b (by simp)
    have hLb_len : (b.columns.map (fun c => [c.values])).length = s.length := by
      simp [hb.2.1]
    have hLb_sum : ∀ l ∈ b.columns.map (fun c => [c.values]),
        (l.map List.length).sum = b.numRows := by
      intro l hl
      obtain ⟨c, hc, rfl⟩ := List.mem_map.mp hl
      simp [hb.2.2.2 c hc]
    rw [List.map_cons, List.cons_append]
    by_cases hzero : n = 0
    · simp only [intoPolarsGo, convert_record_batch_ok s b hb hcan,
        vstack_zero s L _ hL hLb_len (fun l hl => by rw [hn l hl, hzero])]
      exact ih post _ b.numRows hLb_len hLb_sum
        (fun x hx => hconf x (by simp [hx]))
    · simp only [intoPolarsGo, convert_record_batch_ok s b hb hcan,
        vstack_pos s L _ hL hLb_len (fun l hl => by rw [hn l hl]; exact hzero)]
      exact ih post _ (n + b.numRows)
        (by simp [hL, hLb_len])
        (sums_zipWith_append L _ n b.numRows hn hLb_sum)
        (fun x hx => hconf x (by simp [hx]))

theorem importStructChildren_short :
    ∀ (fs : List PolarsArrowField) (cs : List CArray), cs.length < fs.length →
      ∃ e, importStructChildren fs cs = .error e := by
  intro fs
  induction fs with
  | nil => intro cs h; simp at h
  | cons f fs ih =>
    intro cs h
    cases cs with
    | nil => exact ⟨⟨"ffi child index out of range"⟩, rfl⟩
    | cons c cs =>
      cases him : importPolarsPrimFromC c f.dtype with
      | error e => exact ⟨e, by simp [importStructChildren, him]⟩
      | ok a =>
        obtain ⟨e, he⟩ := ih cs (by simpa using h)
        exact ⟨e, by simp [importStructChildren, him, he]⟩

theorem recordBatchTryNew_schema (s : List ArrowField) (cols : List ArrowArray)
    (b : ArrowRecordBatch) (h : recordBatchTryNew s cols = .ok b) :
    b.schema = s := by
  unfold recordBatchTryNew at h
  split at h
  · cases h; rfl
  · cases h

theorem convertChunk_ok_schema (s : List ArrowField)
    (chunk : List PolarsArrowArray) (b : ArrowRecordBatch)
    (h : convertChunk s chunk = some (.ok b)) : b.schema = s := by
  unfold convertChunk at h
  cases hc : convertChunkCols (chunk.zip s) with
  | none => rw [hc] at h; cases h
  | some cols =>
    rw [hc] at h
    have h3 : some (recordBatchTryNew s cols) = some (Except.ok b) := h
    have h4 : recordBatchTryNew s cols = .ok b := by injection h3
    exact recordBatchTryNew_schema s cols b h4

/-- C1 counterexample: the schema round trip is not the identity.  A
non-nullable int32 field comes back nullable, a utf8 field comes back as
largeUtf8, and two fields sharing a name collapse into one entry of the
polars Schema index map, so the round trip of a duplicate-name schema loses a
field. -/
theorem c1_schema_roundtrip_counterexample :
    roundTripSchema [⟨"a", .int32, false⟩] = .ok [⟨"a", .int32, true⟩] ∧
    roundTripSchema [⟨"a", .utf8, true⟩] = .ok [⟨"a", .largeUtf8, true⟩] ∧
    roundTripSchema [⟨"a", .int32, true⟩, ⟨"a", .int64, true⟩] =
      .ok [⟨"a", .int64, true⟩] := by
  exact ⟨rfl, rfl, rfl⟩

/-- C1 amended: for every schema with pairwise distinct field names whose
field types are canonical for the bridge (every supported type except utf8,
which the DataFrame type system conflates with the fixed large string
encoding), converting the schema to the polars side with
convert_arrow_rb_schema_to_polars_df_schema and back with
convert_polars_arrow_field_to_arrow_rs_field preserves field names, logical
types and order, while the nullable flag of every resulting field is true
(the constant IS_ARRAY_NULLABLE) regardless of the input flags. -/
theorem c1_schema_roundtrip_amended (s : List ArrowField)
    (hnd : (s.map ArrowField.name).Nodup)
    (hcan : ∀ f ∈ s, dtypeCanonical f.dtype = true) :
    roundTripSchema s = .ok (s.map (fun f => ⟨f.name, f.dtype, true⟩)) := by
  unfold roundTripSchema
  rw [convert_arrow_rb_schema_nodup s hnd]
  show backConvertFields (psOf s) = _
  rw [backConvertFields_eq]
  apply congrArg
  rw [psOf, List.map_map]
  apply List.map_congr_left
  intro f hf
  show (⟨f.name, decArrow (encPolars (to_arrow (arrowDtypeToDf f.dtype))),
    true⟩ : ArrowField) = _
  rw [of_decide_eq_true (hcan f hf), decArrow_encArrow]

/-- C1 witness: the amended round trip at a concrete two-field schema with a
non-nullable int32 field and a nullable large string field. -/
theorem c1_schema_roundtrip_witness :
    roundTripSchema [⟨"x", .int32, false⟩, ⟨"y", .largeUtf8, true⟩] =
      .ok [⟨"x", .int32, true⟩, ⟨"y", .largeUtf8, true⟩] :=
  c1_schema_roundtrip_amended
    [⟨"x", .int32, false⟩, ⟨"y", .largeUtf8, true⟩] (by decide) (by decide)

/-- C2 counterexample: the field conversions do not preserve the nullable
flag and the name in both directions.  Converting a non-nullable polars field
to arrow-rs yields a nullable field, and converting an arrow-rs field to
polars-arrow yields a field whose name is empty, because only the data type
is exported. -/
theorem c2_field_preservation_counterexample :
    (convert_polars_arrow_field_to_arrow_rs_field
      ⟨"a", .int32, false⟩).map ArrowField.nullable = .ok true ∧
    (convert_arrow_rs_field_to_polars_arrow_field
      ⟨"a", .int32, false⟩).map PolarsArrowField.name = .ok "" := by
  exact ⟨rfl, rfl⟩

/-- C2 amended: convert_polars_arrow_field_to_arrow_rs_field maps the data
type through the C contract and keeps the input name, but always sets the
nullable flag to true (the constant IS_ARRAY_NULLABLE) regardless of the
input flag; convert_arrow_rs_field_to_polars_arrow_field converts only the
data type, so the returned field carries the metadata of a type-only export:
its name is empty and independent of the input name. -/
theorem c2_field_preservation_amended :
    (∀ f : PolarsArrowField,
      convert_polars_arrow_field_to_arrow_rs_field f =
        .ok ⟨f.name, decArrow (encPolars f.dtype), true⟩) ∧
    (∀ g : ArrowField,
      (convert_arrow_rs_field_to_polars_arrow_field g).map
        PolarsArrowField.name = .ok "" ∧
      (convert_arrow_rs_field_to_polars_arrow_field g).map
        PolarsArrowField.dtype = .ok (decPolars (encArrow g.dtype))) :=
  ⟨fun _ => rfl, fun _ => ⟨rfl, rfl⟩⟩

/-- C3 counterexample: unwrapping a struct-wrapped two-column batch against a
polars schema holding only the first field does not raise an error; the
conversion succeeds and silently truncates the batch to the single schema
column. -/
theorem c3_struct_unwrap_counterexample :
    convert_arrow_rb_to_polars_df
      ⟨[⟨"a", .int32, true⟩, ⟨"b", .int64, true⟩],
        [⟨.int32, [.i32 1]⟩, ⟨.int64, [.i64 2]⟩]⟩
      [⟨"a", .int32⟩] =
    .ok ⟨[⟨"a", .int32, [[.i32 1]]⟩]⟩ := by
  exact rfl

/-- C3 amended: when the polars schema has more fields than the batch has
columns, convert_arrow_rb_to_polars_df returns an error, but the mismatch is
detected inside the array-level FFI import of the struct children, not by a
prior check; when the schema has fewer fields, the conversion succeeds and
silently truncates the batch to the schema columns, as the concrete instance
shows. -/
theorem c3_struct_unwrap_amended :
    (∀ (rb : ArrowRecordBatch) (ps : List PolarsDfField),
      rb.columns.length < ps.length →
      ∃ e, convert_arrow_rb_to_polars_df rb ps = .error e) ∧
    convert_arrow_rb_to_polars_df
      ⟨[⟨"a", .int32, true⟩, ⟨"b", .int64, true⟩],
        [⟨.int32, [.i32 7]⟩, ⟨.int64, [.i64 8]⟩]⟩
      [⟨"a", .int32⟩] =
    .ok ⟨[⟨"a", .int32, [[.i32 7]]⟩]⟩ := by
  constructor
  · intro rb ps h
    obtain ⟨e, he⟩ := importStructChildren_short
      (ps.map (fun f => ⟨f.name, to_arrow f.dtype, IS_ARRAY_NULLABLE⟩))
      (rb.columns.map (fun c => .prim (encArrow c.dtype) c.values))
      (by simpa using h)
    exact ⟨e, by simp only [convert_arrow_rb_to_polars_df, he]⟩
  · exact rfl

/-- C3 witness: the amended error branch at a concrete one-column batch
checked against a two-field schema, together with the concrete truncation
instance. -/
theorem c3_struct_unwrap_witness :
    (∃ e, convert_arrow_rb_to_polars_df
      ⟨[⟨"a", .int32, true⟩], [⟨.int32, [.i32 1]⟩]⟩
      [⟨"a", .int32⟩, ⟨"b", .int64⟩] = .error e) ∧
    convert_arrow_rb_to_polars_df
      ⟨[⟨"a", .int32, true⟩, ⟨"b", .int64, true⟩],
        [⟨.int32, [.i32 7]⟩, ⟨.int64, [.i64 8]⟩]⟩
      [⟨"a", .int32⟩] =
    .ok ⟨[⟨"a", .int32, [[.i32 7]]⟩]⟩ :=
  ⟨c3_struct_unwrap_amended.1
      ⟨[⟨"a", .int32, true⟩], [⟨.int32, [.i32 1]⟩]⟩
      [⟨"a", .int32⟩, ⟨"b", .int64⟩] (by decide),
    c3_struct_unwrap_amended.2⟩

/-- C7 counterexample: the private array convertors of arrow.rs do not
return a rejected import to the caller; on a large string array declared as
int32 the import is rejected and both helpers panic (modelled as none)
instead of returning the error. -/
theorem c7_result_propagation_counterexample :
    convert_polars_array_to_arrow_rs_array ⟨.largeUtf8, [.str "x"]⟩ .int32 =
      none ∧
    convert_arrow_rs_array_to_polars_array ⟨.largeUtf8, [.str "x"]⟩ .int32 =
      none := by
  exact ⟨rfl, rfl⟩

/-- C7 amended: the public convertors of polars_arrow_convertors.rs return
the rejected import as an error value the caller must inspect, but the
private helpers of arrow.rs unwrap the same import and panic on rejection
(modelled as none), so not every conversion operation of the bridge returns
its failure to the caller. -/
theorem c7_result_propagation_amended :
    convert_polars_arrow_array_to_arrow_rs_array ⟨.largeUtf8, [.str "x"]⟩
      .int32 = .error ⟨"ffi buffer layout mismatch"⟩ ∧
    convert_arrow_rs_array_to_polars_arrow_array ⟨.largeUtf8, [.str "x"]⟩
      .int32 = .error ⟨"ffi buffer layout mismatch"⟩ ∧
    convert_polars_array_to_arrow_rs_array ⟨.largeUtf8, [.str "x"]⟩ .int32 =
      none ∧
    convert_arrow_rs_array_to_polars_array ⟨.largeUtf8, [.str "x"]⟩ .int32 =
      none := by
  exact ⟨rfl, rfl, rfl, rfl⟩

/-- C8 counterexample: SimpleRecordBatchReader forwards the items of its
inner iterator without any schema check, so a batch whose schema differs from
the schema the reader reports is yielded silently rather than asserted
against. -/
theorem c8_adapter_schema_counterexample :
    (SimpleRecordBatchReader.next
      ⟨[⟨"a", .int32, true⟩],
        [.ok ⟨[⟨"b", .int64, true⟩], [⟨.int64, []⟩]⟩]⟩).1 =
      some (.ok ⟨[⟨"b", .int64, true⟩], [⟨.int64, []⟩]⟩) ∧
    ([⟨"b", .int64, true⟩] : List ArrowField) ≠ [⟨"a", .int32, true⟩] := by
  exact ⟨rfl, by decide⟩

/-- C8 amended: the schema of each adapter is fixed at construction, and
PolarsDataFrameRecordBatchReader guarantees through the validating batch
constructor that every successfully yielded batch carries exactly the
reported schema; SimpleRecordBatchReader however forwards the items of its
inner iterator unchecked, so schema conformance of its batches is a
precondition on the constructor and is never asserted. -/
theorem c8_adapter_schema_amended :
    (∀ r : SimpleRecordBatchReader,
      (SimpleRecordBatchReader.next r).1 = r.batches.head?) ∧
    (∀ (s : List ArrowField) (chunk : List PolarsArrowArray)
      (b : ArrowRecordBatch),
      convertChunk s chunk = some (.ok b) → b.schema = s) :=
  ⟨fun _ => rfl, fun s chunk b h => convertChunk_ok_schema s chunk b h⟩

/-- C8 witness: the polars reader conclusion at a concrete one-column chunk
whose conversion yields a batch carrying exactly the reader schema. -/
theorem c8_adapter_schema_witness :
    (⟨[⟨"a", .int32, true⟩], [⟨.int32, [.i32 7]⟩]⟩ :
      ArrowRecordBatch).schema = [⟨"a", .int32, true⟩] :=
  c8_adapter_schema_amended.2 [⟨"a", .int32, true⟩] [⟨.int32, [.i32 7]⟩]
    ⟨[⟨"a", .int32, true⟩], [⟨.int32, [.i32 7]⟩]⟩ rfl

/-- C10: a stream that yields zero batches accumulates successfully into the
empty DataFrame built from the converted stream schema, whose height is zero;
an empty input sequence is not an error. -/
theorem c10_empty_stream (s : List ArrowField) :
    into_polars s [] =
      some (.ok (dfFromSchema (convert_arrow_schema_to_polars_df_schema s))) ∧
    (dfFromSchema (convert_arrow_schema_to_polars_df_schema s)).height = 0 := by
  constructor
  · rfl
  · cases h : convert_arrow_schema_to_polars_df_schema s with
    | nil => rfl
    | cons f fs => rfl

/-- C4 counterexample: three one-row batches conforming to the stream schema
do not always accumulate into a three-row frame.  With a schema holding two
fields of the same name the polars Schema index map collapses them, so the
column loop runs out of Schema fields and the accumulation errors; with a
utf8 column the polars Schema canonicalizes the type to the large encoding,
the declared import type no longer matches the exported buffers, and the
unwrapped import panics (modelled as none). -/
theorem c4_accumulation_counterexample :
    into_polars [⟨"a", .int32, true⟩, ⟨"a", .int32, true⟩]
      [.ok ⟨[⟨"a", .int32, true⟩, ⟨"a", .int32, true⟩],
          [⟨.int32, [.i32 1]⟩, ⟨.int32, [.i32 1]⟩]⟩,
       .ok ⟨[⟨"a", .int32, true⟩, ⟨"a", .int32, true⟩],
          [⟨.int32, [.i32 2]⟩, ⟨.int32, [.i32 2]⟩]⟩,
       .ok ⟨[⟨"a", .int32, true⟩, ⟨"a", .int32, true⟩],
          [⟨.int32, [.i32 3]⟩, ⟨.int32, [.i32 3]⟩]⟩] =
      some (.error ⟨"schema field not found"⟩) ∧
    into_polars [⟨"a", .utf8, true⟩]
      [.ok ⟨[⟨"a", .utf8, true⟩], [⟨.utf8, [.str "x"]⟩]⟩,
       .ok ⟨[⟨"a", .utf8, true⟩], [⟨.utf8, [.str "y"]⟩]⟩,
       .ok ⟨[⟨"a", .utf8, true⟩], [⟨.utf8, [.str "z"]⟩]⟩] = none := by
  exact ⟨rfl, rfl⟩

/-- C4 amended: for a stream schema with pairwise distinct field names and
canonical field types, feeding three one-row batches conforming to the schema
into the accumulation yields a frame whose columns hold the three row chunks
in arrival order, whose height is three and which contains three internal
chunks. -/
theorem c4_accumulation_amended (s : List ArrowField)
    (b1 b2 b3 : ArrowRecordBatch)
    (hnd : (s.map ArrowField.name).Nodup)
    (hcan : ∀ f ∈ s, dtypeCanonical f.dtype = true)
    (h1 : conformsTo b1 s) (h2 : conformsTo b2 s) (h3 : conformsTo b3 s)
    (r1 : b1.numRows = 1) (r2 : b2.numRows = 1) (r3 : b3.numRows = 1) :
    into_polars s [.ok b1, .ok b2, .ok b3] =
      some (.ok (colsFrame s
        (List.zipWith (· ++ ·)
          (List.zipWith (· ++ ·)
            (b1.columns.map (fun c => [c.values]))
            (b2.columns.map (fun c => [c.values])))
          (b3.columns.map (fun c => [c.values]))))) ∧
    (colsFrame s
        (List.zipWith (· ++ ·)
          (List.zipWith (· ++ ·)
            (b1.columns.map (fun c => [c.values]))
            (b2.columns.map (fun c => [c.values])))
          (b3.columns.map (fun c => [c.values])))).height = 3 ∧
    (colsFrame s
        (List.zipWith (· ++ ·)
          (List.zipWith (· ++ ·)
            (b1.columns.map (fun c => [c.values]))
            (b2.columns.map (fun c => [c.values])))
          (b3.columns.map (fun c => [c.values])))).nChunks = 3 := by
  have hL1len : (b1.columns.map (fun c => [c.values])).length = s.length := by
    simp [h1.2.1]
  have hL2len : (b2.columns.map (fun c => [c.values])).length = s.length := by
    simp [h2.2.1]
  have hL3len : (b3.columns.map (fun c => [c.values])).length = s.length := by
    simp [h3.2.1]
  have hL1sum : ∀ l ∈ b1.columns.map (fun c => [c.values]),
      (l.map List.length).sum = 1 := by
    intro l hl
    obtain ⟨c, hc, rfl⟩ := List.mem_map.mp hl
    simp [h1.2.2.2 c hc, r1]
  have hL2sum : ∀ l ∈ b2.columns.map (fun c => [c.values]),
      (l.map List.length).sum = 1 := by
    intro l hl
    obtain ⟨c, hc, rfl⟩ := List.mem_map.mp hl
    simp [h2.2.2.2 c hc, r2]
  have hL3sum : ∀ l ∈ b3.columns.map (fun c => [c.values]),
      (l.map List.length).sum = 1 := by
    intro l hl
    obtain ⟨c, hc, rfl⟩ := List.mem_map.mp hl
    simp [h3.2.2.2 c hc, r3]
  have hL12len : (List.zipWith (· ++ ·)
      (b1.columns.map (fun c => [c.values]))
      (b2.columns.map (fun c => [c.values]))).length = s.length := by
    simp [h1.2.1, h2.2.1]
  have hL12sum : ∀ l ∈ List.zipWith (· ++ ·)
      (b1.columns.map (fun c => [c.values]))
      (b2.columns.map (fun c => [c.values])),
      (l.map List.length).sum = 2 :=
    sums_zipWith_append _ _ 1 1 hL1sum hL2sum
  refine ⟨?_, ?_, ?_⟩
  · show intoPolarsGo (convert_arrow_schema_to_polars_df_schema s)
      (dfFromSchema (convert_arrow_schema_to_polars_df_schema s))
      [.ok b1, .ok b2, .ok b3] = _
    rw [convert_arrow_schema_nodup s hnd, dfFromSchema_psOf]
    have hc1 := convert_record_batch_ok s b1 h1 hcan
    have hc2 := convert_record_batch_ok s b2 h2 hcan
    have hc3 := convert_record_batch_ok s b3 h3 hcan
    have hv1 := vstack_zero s (List.replicate s.length [[]])
      (b1.columns.map (fun c => [c.values])) (by simp) hL1len
      (fun l hl => by rw [List.eq_of_mem_replicate hl]; rfl)
    have hv2 := vstack_pos s (b1.columns.map (fun c => [c.values]))
      (b2.columns.map (fun c => [c.values])) hL1len hL2len
      (fun l hl => by rw [hL1sum l hl]; exact one_ne_zero)
    have hv3 := vstack_pos s (List.zipWith (· ++ ·)
        (b1.columns.map (fun c => [c.values]))
        (b2.columns.map (fun c => [c.values])))
      (b3.columns.map (fun c => [c.values])) hL12len hL3len
      (fun l hl => by rw [hL12sum l hl]; exact two_ne_zero)
    simp only [intoPolarsGo, hc1, hv1, hc2, hv2, hc3, hv3]
  · cases hb1 : b1.columns with
    | nil => simp [ArrowRecordBatch.numRows, hb1] at r1
    | cons c1 cr1 =>
      cases hb2 : b2.columns with
      | nil => simp [ArrowRecordBatch.numRows, hb2] at r2
      | cons c2 cr2 =>
        cases hb3 : b3.columns with
        | nil => simp [ArrowRecordBatch.numRows, hb3] at r3
        | cons c3 cr3 =>
          have hc1len : c1.values.length = 1 := by
            simpa [ArrowRecordBatch.numRows, hb1] using r1
          have hc2len : c2.values.length = 1 := by
            simpa [ArrowRecordBatch.numRows, hb2] using r2
          have hc3len : c3.values.length = 1 := by
            simpa [ArrowRecordBatch.numRows, hb3] using r3
          cases s with
          | nil =>
            have hlen := h1.2.1
            rw [hb1] at hlen
            simp at hlen
          | cons f fs =>
            simp [colsFrame, DataFrame.height, Series.len, hc1len, hc2len,
              hc3len]
  · cases hb1 : b1.columns with
    | nil => simp [ArrowRecordBatch.numRows, hb1] at r1
    | cons c1 cr1 =>
      cases hb2 : b2.columns with
      | nil => simp [ArrowRecordBatch.numRows, hb2] at r2
      | cons c2 cr2 =>
        cases hb3 : b3.columns with
        | nil => simp [ArrowRecordBatch.numRows, hb3] at r3
        | cons c3 cr3 =>
          cases s with
          | nil =>
            have hlen := h1.2.1
            rw [hb1] at hlen
            simp at hlen
          | cons f fs =>
            simp [colsFrame, DataFrame.nChunks]

/-- C4 witness: the amended accumulation at a concrete one-column int32
schema and three concrete one-row batches, yielding the three rows in
arrival order as three chunks. -/
theorem c4_accumulation_witness :
    into_polars [⟨"a", .int32, true⟩]
      [.ok ⟨[⟨"a", .int32, true⟩], [⟨.int32, [.i32 1]⟩]⟩,
       .ok ⟨[⟨"a", .int32, true⟩], [⟨.int32, [.i32 2]⟩]⟩,
       .ok ⟨[⟨"a", .int32, true⟩], [⟨.int32, [.i32 3]⟩]⟩] =
      some (.ok ⟨[⟨"a", .int32, [[.i32 1], [.i32 2], [.i32 3]]⟩]⟩) ∧
    (⟨[⟨"a", .int32, [[.i32 1], [.i32 2], [.i32 3]]⟩]⟩ :
      DataFrame).height = 3 ∧
    (⟨[⟨"a", .int32, [[.i32 1], [.i32 2], [.i32 3]]⟩]⟩ :
      DataFrame).nChunks = 3 :=
  c4_accumulation_amended [⟨"a", .int32, true⟩]
    ⟨[⟨"a", .int32, true⟩], [⟨.int32, [.i32 1]⟩]⟩
    ⟨[⟨"a", .int32, true⟩], [⟨.int32, [.i32 2]⟩]⟩
    ⟨[⟨"a", .int32, true⟩], [⟨.int32, [.i32 3]⟩]⟩
    (by decide) (by decide) (by decide) (by decide) (by decide)
    (by decide) (by decide) (by decide)

/-- C5 counterexample: a batch whose array conversion is rejected does not
abort the accumulation with a returned error; the unwrapped import panics
(modelled as none), so the originating conversion error is not returned to
the caller. -/
theorem c5_error_abort_counterexample :
    into_polars [⟨"a", .int32, true⟩]
      [.ok ⟨[⟨"a", .int32, true⟩], [⟨.largeUtf8, [.str "x"]⟩]⟩] = none := by
  exact rfl

/-- C5 amended: for every failure the accumulation surfaces as an error
value, namely an error item yielded by the stream after any prefix of
conforming batches, into_polars returns exactly that error, returns no
partial frame, and never consumes the items after the failure; a batch whose
array import is rejected instead aborts by panic, as the counterexample
records. -/
theorem c5_error_abort_amended (s : List ArrowField)
    (pre : List ArrowRecordBatch) (e : Err)
    (post : List (Except Err ArrowRecordBatch))
    (hnd : (s.map ArrowField.name).Nodup)
    (hcan : ∀ f ∈ s, dtypeCanonical f.dtype = true)
    (hpre : ∀ b ∈ pre, conformsTo b s) :
    into_polars s (pre.map Except.ok ++ Except.error e :: post) =
      some (.error e) := by
  show intoPolarsGo (convert_arrow_schema_to_polars_df_schema s)
    (dfFromSchema (convert_arrow_schema_to_polars_df_schema s)) _ = _
  rw [convert_arrow_schema_nodup s hnd, dfFromSchema_psOf]
  exact intoPolarsGo_error s e hcan pre post _ 0 (by simp)
    (fun l hl => by rw [List.eq_of_mem_replicate hl]; rfl) hpre

/-- C5 witness: the amended abort at a concrete stream yielding one
conforming batch, one error item, and one further batch: the error item is
returned and the batch after it is not consumed. -/
theorem c5_error_abort_witness :
    into_polars [⟨"a", .int32, true⟩]
      [.ok ⟨[⟨"a", .int32, true⟩], [⟨.int32, [.i32 1]⟩]⟩,
       .error ⟨"boom"⟩,
       .ok ⟨[⟨"a", .int32, true⟩], [⟨.int32, [.i32 2]⟩]⟩] =
      some (.error ⟨"boom"⟩) :=
  c5_error_abort_amended [⟨"a", .int32, true⟩]
    [⟨[⟨"a", .int32, true⟩], [⟨.int32, [.i32 1]⟩]⟩] ⟨"boom"⟩
    [.ok ⟨[⟨"a", .int32, true⟩], [⟨.int32, [.i32 2]⟩]⟩]
    (by decide) (by decide) (by decide)

/-- C6: converting the one-row three-column DataFrame with values ab, 1 and
1.0 to an arrow batch sequence and back accumulates into a DataFrame whose
schema is the string, int32 and float64 triple (with the string column
reported at the canonical large encoding on the arrow side, the fixed choice
of POLARS_ARROW_FLAVOR) and whose single row equals the original values. -/
theorem c6_end_to_end :
    (PolarsDataFrameRecordBatchReader.new exampleDf).arrow_schema =
      [⟨"string", .largeUtf8, true⟩, ⟨"int", .int32, true⟩,
        ⟨"float", .float64, true⟩] ∧
    endToEnd exampleDf = some (.ok exampleDfResult) ∧
    dfSchemaOf exampleDfResult =
      [("string", .string), ("int", .int32), ("float", .float64)] ∧
    exampleDfResult.height = 1 := by
  exact ⟨rfl, rfl, rfl, rfl⟩

end LanceDbPolarsBridge
